import Mathlib

/-!
Verification of the node-task-manager core against its specification.

Each section shallowly embeds one part of the TypeScript source:

* `TarExtract` — the bounded-concurrency extraction loop of
  `decompressTarGz` (src/services/CompressionService.ts, lines 309-429).
* `EmitterModel` — `Emitter.emit` (src/utils/Emitter.js, lines 95-160).
* `AdapterFactory` — `CompressionAdapterFactory.getAdapter` /
  `registerAdapter` (src/adapters/CompressionAdapterFactory.ts).
* `Archive` — `detectFileType` and the dispatch logic of
  `decompressArchive` (src/services/CompressionService.ts, lines 175-239).
* `TaskCore` — `Task` and the `TaskManager` transition methods,
  `waitForTask` and `download` (src/core/TaskManager.ts, src/core/Task.ts).
-/

namespace TarExtract

/-- Source constant `MAX_CONCURRENT_FILES = 5` ("Límite de archivos
simultáneos") from CompressionService.ts; `decompressTarGz` copies it into
its local `maxConcurrentWrites`. -/
def MAX_CONCURRENT_FILES : Nat := 5

/-- State of the extraction loop inside `decompressTarGz`'s promise
executor.  `activeWrites` and `pendingEntries` are the mutable variables of
the source (queued entries are represented by numeric labels standing for
the captured `processEntry` closures, kept in FIFO order).  `streamFinished`
records that the tar extractor emitted its single `finish` event,
`rejected` that `safeReject` ran (promise rejected, streams destroyed) and
`resolvedOk` that `safeResolve` fulfilled the promise.  The source guards
both settle paths with one flag `isResolved`, modelled here as
`resolvedOk || rejected`. -/
structure ExtractState where
  activeWrites : Nat
  pendingEntries : List Nat
  streamFinished : Bool
  rejected : Bool
  resolvedOk : Bool
deriving DecidableEq

/-- Initial state of the loop: `activeWrites = 0`, empty queue, promise
pending, stream not finished. -/
def initExtract : ExtractState :=
  { activeWrites := 0, pendingEntries := [], streamFinished := false,
    rejected := false, resolvedOk := false }

/-- One event-handler execution of `decompressTarGz`, exactly as the source
reacts to it.

* `entryStart` / `entryQueue`: the `extractor.on('entry', ...)` handler —
  if `activeWrites < maxConcurrentWrites` the entry's `processEntry` runs at
  once (incrementing `activeWrites`), otherwise the closure is pushed onto
  `pendingEntries`.  Entries only arrive while the (non-destroyed) stream
  has not finished.
* `completePull` / `completeIdle`: the `finally` block of `processEntry` —
  decrement `activeWrites`, call `next()`, then `processNextEntry()` shifts
  and runs the head of the FIFO when the queue is non-empty and the
  decremented counter is below the limit.
* `errorReject`: `safeReject` (stream error or a failed write) — sets the
  resolved flag and destroys the streams; it does nothing once the promise
  is settled.
* `finishBusy` / `finishIdle`: the `extractor.on('finish', ...)` handler —
  when `activeWrites == 0` it calls `safeResolve`, which fulfils the
  promise; otherwise it does nothing. -/
inductive Step : ExtractState → ExtractState → Prop where
  | entryStart (s : ExtractState) (e : Nat)
      (hfin : s.streamFinished = false) (hrej : s.rejected = false)
      (h : s.activeWrites < MAX_CONCURRENT_FILES) :
      Step s { s with activeWrites := s.activeWrites + 1 }
  | entryQueue (s : ExtractState) (e : Nat)
      (hfin : s.streamFinished = false) (hrej : s.rejected = false)
      (h : ¬ s.activeWrites < MAX_CONCURRENT_FILES) :
      Step s { s with pendingEntries := s.pendingEntries ++ [e] }
  | completePull (s : ExtractState) (e : Nat) (rest : List Nat)
      (h : 0 < s.activeWrites) (hq : s.pendingEntries = e :: rest)
      (hroom : s.activeWrites - 1 < MAX_CONCURRENT_FILES) :
      Step s { s with activeWrites := s.activeWrites - 1 + 1, pendingEntries := rest }
  | completeIdle (s : ExtractState)
      (h : 0 < s.activeWrites)
      (hq : s.pendingEntries = [] ∨ ¬ s.activeWrites - 1 < MAX_CONCURRENT_FILES) :
      Step s { s with activeWrites := s.activeWrites - 1 }
  | errorReject (s : ExtractState)
      (hres : s.resolvedOk = false) (hrej : s.rejected = false) :
      Step s { s with rejected := true }
  | finishBusy (s : ExtractState)
      (hfin : s.streamFinished = false) (hrej : s.rejected = false)
      (h : s.activeWrites ≠ 0) :
      Step s { s with streamFinished := true }
  | finishIdle (s : ExtractState)
      (hfin : s.streamFinished = false) (hrej : s.rejected = false)
      (h : s.activeWrites = 0) :
      Step s { s with streamFinished := true, resolvedOk := true }

/-- States reachable by the extraction loop of a single decompress call. -/
inductive Reachable : ExtractState → Prop where
  | init : Reachable initExtract
  | step {s t : ExtractState} (hs : Reachable s) (hstep : Step s t) : Reachable t

/-- Reachability for the event orderings `tar-stream` actually produces:
the extractor delivers the next `entry` (or `finish`) only after the
previous entry's `next()` callback ran, and the source calls `next()` in
the `finally` block, after decrementing `activeWrites`.  Hence entries and
the finish event only ever arrive at quiescent states
(`activeWrites = 0`, empty queue). -/
inductive SeqReachable : ExtractState → Prop where
  | init : SeqReachable initExtract
  | entry {s : ExtractState} (hs : SeqReachable s) (e : Nat)
      (hfin : s.streamFinished = false) (hrej : s.rejected = false)
      (hidle : s.activeWrites = 0) (hq : s.pendingEntries = []) :
      SeqReachable { s with activeWrites := s.activeWrites + 1 }
  | complete {s : ExtractState} (hs : SeqReachable s)
      (h : 0 < s.activeWrites) (hq : s.pendingEntries = []) :
      SeqReachable { s with activeWrites := s.activeWrites - 1 }
  | errorStep {s : ExtractState} (hs : SeqReachable s)
      (hres : s.resolvedOk = false) (hrej : s.rejected = false) :
      SeqReachable { s with rejected := true }
  | finish {s : ExtractState} (hs : SeqReachable s)
      (hfin : s.streamFinished = false) (hrej : s.rejected = false)
      (hidle : s.activeWrites = 0) (hq : s.pendingEntries = []) :
      SeqReachable { s with streamFinished := true, resolvedOk := true }

/-- Every sequential (tar-stream-faithful) trace is a trace of the general
dispatcher semantics. -/
theorem seqReachable_reachable {s : ExtractState} (h : SeqReachable s) : Reachable s := by
  induction h with
  | init => exact Reachable.init
  | entry hs e hfin hrej hidle hq ih =>
      exact Reachable.step ih
        (Step.entryStart _ e hfin hrej (by simp [MAX_CONCURRENT_FILES, hidle]))
  | complete hs h hq ih =>
      exact Reachable.step ih (Step.completeIdle _ h (Or.inl hq))
  | errorStep hs hres hrej ih =>
      exact Reachable.step ih (Step.errorReject _ hres hrej)
  | finish hs hfin hrej hidle hq ih =>
      exact Reachable.step ih (Step.finishIdle _ hfin hrej hidle)

end TarExtract

namespace TarExtract

/-- C1: in every reachable state of the `decompressTarGz` extraction loop
the `activeWrites` counter never exceeds `MAX_CONCURRENT_FILES` (5): an
incoming entry is processed immediately only when `activeWrites < limit`,
otherwise it is queued, and each completion decrements the counter before
pulling the next queued entry. -/
theorem activeWrites_never_exceeds_limit :
    ∀ s : ExtractState, Reachable s → s.activeWrites ≤ MAX_CONCURRENT_FILES := by
  intro s h
  induction h with
  | init => simp [initExtract, MAX_CONCURRENT_FILES]
  | step hs hstep ih =>
      cases hstep <;> simp_all <;> omega

/-- Witness for C1: the bound holds at the concrete state reached after the
first archive entry starts processing. -/
theorem activeWrites_never_exceeds_limit_witness :
    ({ activeWrites := 1, pendingEntries := [], streamFinished := false,
       rejected := false, resolvedOk := false } : ExtractState).activeWrites
      ≤ MAX_CONCURRENT_FILES :=
  activeWrites_never_exceeds_limit _
    (Reachable.step Reachable.init
      (Step.entryStart initExtract 0 rfl rfl (by decide)))

/-- C3: the decompress promise is fulfilled only when the archive stream
has finished and `activeWrites = 0` (safety, over arbitrary interleavings
of the source's handlers); and in every execution ordered as `tar-stream`
orders events, once the stream finishes (all in-flight writes having
completed beforehand, since `next()` runs after each completion) the
promise is fulfilled (liveness). -/
theorem decompress_resolves_iff_finished_and_drained :
    (∀ s : ExtractState, Reachable s → s.resolvedOk = true →
        s.streamFinished = true ∧ s.activeWrites = 0) ∧
    (∀ s : ExtractState, SeqReachable s → s.streamFinished = true →
        s.resolvedOk = true) := by
  constructor
  · intro s h
    induction h with
    | init => simp [initExtract]
    | step hs hstep ih =>
        cases hstep <;>
          first
            | (simp_all; done)
            | (intro hres; exact absurd (ih hres).2 (by omega))
  · intro s h
    induction h with
    | init => simp [initExtract]
    | entry hs e hfin hrej hidle hq ih => simp_all
    | complete hs h hq ih => simp_all
    | errorStep hs hres hrej ih => simp_all
    | finish hs hfin hrej hidle hq ih => simp_all

/-- Witness for C3: applied at the concrete state in which an empty archive
finished immediately, the theorem yields that the stream had indeed
finished with no write in flight at fulfilment time. -/
theorem decompress_resolves_iff_finished_and_drained_witness :
    ({ activeWrites := 0, pendingEntries := [], streamFinished := true,
       rejected := false, resolvedOk := true } : ExtractState).streamFinished = true ∧
    ({ activeWrites := 0, pendingEntries := [], streamFinished := true,
       rejected := false, resolvedOk := true } : ExtractState).activeWrites = 0 :=
  decompress_resolves_iff_finished_and_drained.1 _
    (Reachable.step Reachable.init (Step.finishIdle initExtract rfl rfl rfl))
    rfl

end TarExtract

namespace EmitterModel

/-- A registered handler of the event bus.  `id` models the runtime-unique
`Symbol('listener')` tag, `once` the one-shot flag, and `throwsOnCall`
abstracts whether invoking the callback throws (the only aspect of the
callback's behaviour `emit`'s control flow depends on). -/
structure Listener where
  id : Nat
  once : Bool
  throwsOnCall : Bool
deriving DecidableEq

/-- The `forEach` body of `Emitter.emit` over a snapshot of the handler
list, processed front to back: each listener's callback is invoked inside
`try`; on a throw the `catch` block logs and swallows the error; in either
branch a `once` listener's id is appended to `listenersToRemove`.  Returns
the ids invoked (in order) and the ids marked for removal (in order). -/
def runSnapshot : List Listener → List Nat × List Nat
  | [] => ([], [])
  | l :: rest =>
      let tail := runSnapshot rest
      if l.throwsOnCall then
        (l.id :: tail.1, if l.once then l.id :: tail.2 else tail.2)
      else
        (l.id :: tail.1, if l.once then l.id :: tail.2 else tail.2)

/-- The listener lists of one `Emitter` relevant to a single `emit` call:
the event's own list and the wildcard (`any`) list. -/
structure EmitterState where
  listeners : List Listener
  anyListeners : List Listener
deriving DecidableEq

/-- Observable outcome of one `emit` call: the returned `hasListeners`
flag, the callback invocations in order, and the listener lists left
behind. -/
structure EmitResult where
  hasListeners : Bool
  invoked : List Nat
  after : EmitterState
deriving DecidableEq

/-- `Emitter.emit`: snapshots (`[...listeners]`) both lists before
dispatch, runs the event-specific snapshot then the wildcard snapshot, and
afterwards filters each original list down to the listeners whose id was
not marked for removal. -/
def emit (st : EmitterState) : EmitResult :=
  let specRun := runSnapshot st.listeners
  let anyRun := runSnapshot st.anyListeners
  { hasListeners := !st.listeners.isEmpty || !st.anyListeners.isEmpty
    invoked := specRun.1 ++ anyRun.1
    after :=
      { listeners := st.listeners.filter (fun l => !specRun.2.contains l.id)
        anyListeners := st.anyListeners.filter (fun l => !anyRun.2.contains l.id) } }

theorem runSnapshot_eq (ls : List Listener) :
    runSnapshot ls =
      (ls.map Listener.id, (ls.filter (fun l => l.once)).map Listener.id) := by
  induction ls with
  | nil => rfl
  | cons x xs ih =>
      cases hx : x.throwsOnCall <;> cases ho : x.once <;>
        simp [runSnapshot, hx, ho, ih, List.filter_cons]

theorem filter_remove_once (ls : List Listener) (l : Listener)
    (hl : l ∈ ls) (ho : l.once = true) :
    l.id ∉ (ls.filter
      (fun x => !((ls.filter (fun y => y.once)).map Listener.id).contains x.id)).map
        Listener.id := by
  intro hmem
  rcases List.mem_map.mp hmem with ⟨x, hxmem, hxid⟩
  rcases List.mem_filter.mp hxmem with ⟨hxls, hxkeep⟩
  have hlid : l.id ∈ (ls.filter (fun y => y.once)).map Listener.id :=
    List.mem_map.mpr ⟨l, List.mem_filter.mpr ⟨hl, ho⟩, rfl⟩
  rw [hxid] at hxkeep
  simp only [List.contains, List.elem_eq_mem, Bool.not_eq_true',
    decide_eq_false_iff_not] at hxkeep
  exact hxkeep hlid

theorem filter_keep_multi (ls : List Listener)
    (hnd : (ls.map Listener.id).Nodup) (l : Listener)
    (hl : l ∈ ls) (ho : l.once = false) :
    l ∈ ls.filter
      (fun x => !((ls.filter (fun y => y.once)).map Listener.id).contains x.id) := by
  refine List.mem_filter.mpr ⟨hl, ?_⟩
  simp only [List.contains, List.elem_eq_mem, Bool.not_eq_true',
    decide_eq_false_iff_not]
  intro hmem
  rcases List.mem_map.mp hmem with ⟨y, hymem, hyid⟩
  rcases List.mem_filter.mp hymem with ⟨hyls, hyonce⟩
  have hy : y = l := List.inj_on_of_nodup_map hnd hyls hl hyid
  rw [hy, ho] at hyonce
  exact Bool.false_ne_true hyonce

/-- C8: for any `emit` call, a throwing handler does not prevent any other
handler of the same snapshot (event-specific or wildcard) from running —
the full snapshot is invoked in order regardless of the `throwsOnCall`
flags — and every one-shot handler is removed afterwards even when it
threw, while non-one-shot handlers survive.  The id-uniqueness hypotheses
reflect the runtime-unique `Symbol` tags. -/
theorem emit_failure_isolation (st : EmitterState)
    (hn : (st.listeners.map Listener.id).Nodup)
    (ha : (st.anyListeners.map Listener.id).Nodup) :
    (emit st).invoked = st.listeners.map Listener.id ++ st.anyListeners.map Listener.id ∧
    (∀ l ∈ st.listeners, l.once = true →
        l.id ∉ (emit st).after.listeners.map Listener.id) ∧
    (∀ l ∈ st.listeners, l.once = false → l ∈ (emit st).after.listeners) ∧
    (∀ l ∈ st.anyListeners, l.once = true →
        l.id ∉ (emit st).after.anyListeners.map Listener.id) ∧
    (∀ l ∈ st.anyListeners, l.once = false → l ∈ (emit st).after.anyListeners) := by
  refine ⟨?_, ?_, ?_, ?_, ?_⟩
  · simp [emit, runSnapshot_eq]
  · intro l hl ho
    simpa [emit, runSnapshot_eq] using filter_remove_once st.listeners l hl ho
  · intro l hl ho
    simpa [emit, runSnapshot_eq] using filter_keep_multi st.listeners hn l hl ho
  · intro l hl ho
    simpa [emit, runSnapshot_eq] using filter_remove_once st.anyListeners l hl ho
  · intro l hl ho
    simpa [emit, runSnapshot_eq] using filter_keep_multi st.anyListeners ha l hl ho

/-- Concrete listener lists for the C8 witness: a throwing one-shot
handler registered ahead of an ordinary handler, plus a wildcard one-shot
handler. -/
def emitWitnessState : EmitterState :=
  { listeners := [{ id := 1, once := true, throwsOnCall := true },
                  { id := 2, once := false, throwsOnCall := false }]
    anyListeners := [{ id := 3, once := true, throwsOnCall := false }] }

/-- Witness for C8: on the concrete state both handlers and the wildcard
handler run (in order) despite the first one throwing, and the throwing
one-shot handler is removed. -/
theorem emit_failure_isolation_witness :
    (emit emitWitnessState).invoked =
      emitWitnessState.listeners.map Listener.id ++
        emitWitnessState.anyListeners.map Listener.id ∧
    ({ id := 1, once := true, throwsOnCall := true } : Listener).id ∉
      (emit emitWitnessState).after.listeners.map Listener.id :=
  ⟨(emit_failure_isolation emitWitnessState (by decide) (by decide)).1,
   (emit_failure_isolation emitWitnessState (by decide) (by decide)).2.1
     { id := 1, once := true, throwsOnCall := true } (by decide) rfl⟩

end EmitterModel

namespace AdapterFactory

/-- Source enum `AdapterOperation` from ICompressionAdapter.ts. -/
inductive AdapterOperation where
  | compress
  | decompress
  | both
deriving DecidableEq

/-- String value of the enum (used in the error message, as in the
source's template literal). -/
def AdapterOperation.text : AdapterOperation → String
  | .compress => "compress"
  | .decompress => "decompress"
  | .both => "both"

/-- An `ICompressionAdapter` as the factory sees it: its `canHandle`
predicate, its declared `supportedOperations`, and its class name (used in
the error message). -/
structure Adapter where
  name : String
  canHandle : String → Bool
  supportedOperations : AdapterOperation

/-- The `supportsOperation` condition of `getAdapter`:
`operation === BOTH || adapter.supportedOperations === BOTH ||
adapter.supportedOperations === operation`. -/
def opSatisfied (operation : AdapterOperation) (a : Adapter) : Bool :=
  operation == AdapterOperation.both ||
    a.supportedOperations == AdapterOperation.both ||
    a.supportedOperations == operation

/-- The full per-adapter test of the `getAdapter` loop:
`canHandle && supportsOperation`. -/
def adapterMatches (filePath : String) (operation : AdapterOperation) (a : Adapter) : Bool :=
  a.canHandle filePath && opSatisfied operation a

/-- The error message thrown when the loop falls through. -/
def noAdapterMsg (adapters : List Adapter) (filePath : String)
    (operation : AdapterOperation) : String :=
  "No adapter found for file: " ++ filePath ++ " (operation: " ++
    operation.text ++ "). Available adapters: " ++
    String.intercalate ", " (adapters.map Adapter.name)

/-- `CompressionAdapterFactory.getAdapter`: iterate the registered
adapters in order, returning the first one whose `canHandle` accepts the
path and whose declared operations cover the requested operation; throw
when none matches. -/
def getAdapter (adapters : List Adapter) (filePath : String)
    (operation : AdapterOperation) : Except String Adapter :=
  match adapters.find? (fun a => adapterMatches filePath operation a) with
  | some a => Except.ok a
  | none => Except.error (noAdapterMsg adapters filePath operation)

/-- `CompressionAdapterFactory.registerAdapter`: `unshift`, i.e. insert at
the front of the list so the new adapter takes priority. -/
def registerAdapter (adapters : List Adapter) (a : Adapter) : List Adapter :=
  a :: adapters

theorem find_first_split {α : Type} (p : α → Bool) :
    ∀ (l : List α) (a : α), l.find? p = some a →
      p a = true ∧ ∃ pre post, l = pre ++ a :: post ∧ ∀ b ∈ pre, p b = false := by
  intro l
  induction l with
  | nil => intro a h; simp [List.find?] at h
  | cons x xs ih =>
      intro a h
      by_cases hx : p x = true
      · rw [List.find?_cons_of_pos _ hx] at h
        cases h
        exact ⟨hx, [], xs, rfl, by simp⟩
      · rw [List.find?_cons_of_neg _ (by simpa using hx)] at h
        rcases ih a h with ⟨hpa, pre, post, hsplit, hpre⟩
        refine ⟨hpa, x :: pre, post, by rw [hsplit]; rfl, ?_⟩
        intro b hb
        rcases List.mem_cons.mp hb with hbx | hbpre
        · rw [hbx]; simpa using hx
        · exact hpre b hbpre

/-- C7: adapter resolution returns the first adapter in list order
satisfying both `canHandle(path)` and the declared `supportedOperations`
(compress / decompress / both); it fails with the no-adapter-found error
when no adapter satisfies both; and `registerAdapter` inserts the new
adapter at the front of the list, keeping the existing adapters. -/
theorem getAdapter_resolution_spec :
    (∀ (adapters : List Adapter) (p : String) (op : AdapterOperation) (a : Adapter),
        getAdapter adapters p op = Except.ok a →
        a.canHandle p = true ∧ opSatisfied op a = true ∧
        ∃ pre post, adapters = pre ++ a :: post ∧
          ∀ b ∈ pre, adapterMatches p op b = false) ∧
    (∀ (adapters : List Adapter) (p : String) (op : AdapterOperation),
        (∀ b ∈ adapters, adapterMatches p op b = false) →
        getAdapter adapters p op = Except.error (noAdapterMsg adapters p op)) ∧
    (∀ (adapters : List Adapter) (a : Adapter),
        registerAdapter adapters a = a :: adapters ∧
        (registerAdapter adapters a).head? = some a ∧
        (registerAdapter adapters a).tail = adapters) := by
  refine ⟨?_, ?_, ?_⟩
  · intro adapters p op a h
    unfold getAdapter at h
    cases hfind : adapters.find? (fun x => adapterMatches p op x) with
    | none => rw [hfind] at h; exact absurd h (by simp)
    | some b =>
        rw [hfind] at h
        cases h
        rcases find_first_split _ adapters a hfind with ⟨hpa, pre, post, hsplit, hpre⟩
        have hmatch := hpa
        unfold adapterMatches at hmatch
        rcases Bool.and_eq_true_iff.mp hmatch with ⟨hch, hop⟩
        exact ⟨hch, hop, pre, post, hsplit, hpre⟩
  · intro adapters p op hall
    unfold getAdapter
    have : adapters.find? (fun x => adapterMatches p op x) = none :=
      List.find?_eq_none.mpr (fun x hx => by simp [hall x hx])
    rw [this]
  · intro adapters a
    exact ⟨rfl, rfl, rfl⟩

/-- Concrete adapter list for the C7 witness: a non-matching adapter
registered in front of a matching one. -/
def tarOnlyAdapter : Adapter :=
  { name := "TarStreamAdapter", canHandle := fun _ => false,
    supportedOperations := AdapterOperation.both }

/-- Second concrete adapter for the C7 witness. -/
def zipAdapter : Adapter :=
  { name := "YauzlZipAdapter", canHandle := fun _ => true,
    supportedOperations := AdapterOperation.decompress }

/-- Witness for C7: on the concrete two-adapter registry the resolver
skips the non-matching first adapter and returns the second, which indeed
satisfies both conditions and is preceded only by non-matching adapters. -/
theorem getAdapter_resolution_spec_witness :
    zipAdapter.canHandle "backup.zip" = true ∧
    opSatisfied AdapterOperation.decompress zipAdapter = true ∧
    ∃ pre post, [tarOnlyAdapter, zipAdapter] = pre ++ zipAdapter :: post ∧
      ∀ b ∈ pre, adapterMatches "backup.zip" AdapterOperation.decompress b = false :=
  getAdapter_resolution_spec.1 [tarOnlyAdapter, zipAdapter] "backup.zip"
    AdapterOperation.decompress zipAdapter rfl

end AdapterFactory

namespace Archive

/-- Byte `i` of the buffer `detectFileType` reads.  `Buffer.alloc`
zero-fills, and `fd.read` leaves bytes past end-of-file untouched, so a
short file yields zeros at the missing offsets. -/
def byteAt (bytes : List Nat) (i : Nat) : Nat := bytes.getD i 0

/-- ASCII codes of the literal `ustar` the source compares
`buffer.slice(257, 262).toString('ascii')` against. -/
def ustarBytes : List Nat := [117, 115, 116, 97, 114]

/-- Bytes 257..261 of the file, the tar signature window. -/
def tarSignature (bytes : List Nat) : List Nat :=
  [byteAt bytes 257, byteAt bytes 258, byteAt bytes 259, byteAt bytes 260, byteAt bytes 261]

/-- Result type of `detectFileType`. -/
inductive FileType where
  | zip
  | gzip
  | tar
  | unknown
deriving DecidableEq

/-- `detectFileType`: `0x50 0x4B` → zip; `0x1F 0x8B` → gzip; `ustar` at
offset 257 → tar; otherwise unknown. -/
def detectFileType (bytes : List Nat) : FileType :=
  if byteAt bytes 0 = 0x50 ∧ byteAt bytes 1 = 0x4B then FileType.zip
  else if byteAt bytes 0 = 0x1F ∧ byteAt bytes 1 = 0x8B then FileType.gzip
  else if tarSignature bytes = ustarBytes then FileType.tar
  else FileType.unknown

/-- The characters of a path after its last `/` (the basename, as far as
`path.extname` is concerned). -/
def basenameChars (p : List Char) : List Char :=
  p.foldl (fun acc c => if c = '/' then [] else acc ++ [c]) []

/-- Index of the last `.` in a character list, if any. -/
def lastDotIdx (cs : List Char) : Option Nat :=
  (List.range cs.length).foldl
    (fun acc i => if cs.getD i ' ' = '.' then some i else acc) none

/-- `path.extname`: the suffix of the basename from its last `.` on;
empty when the basename has no dot or only a leading dot. -/
def extname (p : String) : String :=
  let b := basenameChars p.data
  match lastDotIdx b with
  | none => ""
  | some 0 => ""
  | some i => String.mk (b.drop i)

/-- ASCII `toLowerCase` on one character (the source only compares ASCII
extensions). -/
def charToLower (c : Char) : Char :=
  if 'A' ≤ c ∧ c ≤ 'Z' then Char.ofNat (c.toNat + 32) else c

/-- `String.prototype.toLowerCase` restricted to ASCII. -/
def toLowerStr (s : String) : String := String.mk (s.data.map charToLower)

/-- `String.prototype.endsWith`. -/
def endsWithStr (s suf : String) : Bool := suf.data.isSuffixOf s.data

/-- The two extraction paths `decompressArchive` can dispatch to. -/
inductive Route where
  | zipStreaming
  | tarGz
deriving DecidableEq

/-- The dispatch logic of `decompressArchive`: detect by magic bytes; when
detection says unknown, fall back to the lowercased extension (`.zip` →
zip path, `.gz` or a path ending in `.tar.gz` → tar/gzip path) and only
then throw; when detection succeeds, route on the detected type. -/
def decompressArchiveRoute (archivePath : String) (bytes : List Nat) :
    Except String Route :=
  let fileType := detectFileType bytes
  if fileType = FileType.unknown then
    let ext := toLowerStr (extname archivePath)
    if ext = ".zip" then Except.ok Route.zipStreaming
    else if ext = ".gz" || endsWithStr archivePath ".tar.gz" then Except.ok Route.tarGz
    else Except.error ("Unsupported archive format: " ++ ext)
  else if fileType = FileType.zip then Except.ok Route.zipStreaming
  else if fileType = FileType.gzip ∨ fileType = FileType.tar then Except.ok Route.tarGz
  else Except.error "Unsupported file type detected: unknown"

/-- Counterexample to C4: a file of 300 zero bytes whose name is
`mystery.zip` detects as unknown, yet `decompressArchive` silently falls
back to the extension and dispatches to the zip path instead of failing
hard. -/
theorem unknown_detection_falls_back_to_extension :
    detectFileType (List.replicate 300 0) = FileType.unknown ∧
    decompressArchiveRoute "mystery.zip" (List.replicate 300 0) =
      Except.ok Route.zipStreaming :=
  ⟨rfl, rfl⟩

/-- C4 (amended): detection maps the `0x50 0x4B` signature to zip, the
`0x1F 0x8B` signature to gzip, `ustar` at offset 257 (absent the first two
signatures) to tar, and anything else to unknown; on an unknown detection
`decompressArchive` falls back to the lowercased file extension — `.zip`
dispatches to the zip path, `.gz` or a `.tar.gz` suffix to the tar/gzip
path — and fails hard only when neither matches; a non-unknown detection
routes on the detected type alone. -/
theorem detect_and_dispatch_spec :
    (∀ bytes, byteAt bytes 0 = 0x50 → byteAt bytes 1 = 0x4B →
        detectFileType bytes = FileType.zip) ∧
    (∀ bytes, byteAt bytes 0 = 0x1F → byteAt bytes 1 = 0x8B →
        detectFileType bytes = FileType.gzip) ∧
    (∀ bytes, ¬ (byteAt bytes 0 = 0x50 ∧ byteAt bytes 1 = 0x4B) →
        ¬ (byteAt bytes 0 = 0x1F ∧ byteAt bytes 1 = 0x8B) →
        tarSignature bytes = ustarBytes →
        detectFileType bytes = FileType.tar) ∧
    (∀ bytes, ¬ (byteAt bytes 0 = 0x50 ∧ byteAt bytes 1 = 0x4B) →
        ¬ (byteAt bytes 0 = 0x1F ∧ byteAt bytes 1 = 0x8B) →
        tarSignature bytes ≠ ustarBytes →
        detectFileType bytes = FileType.unknown) ∧
    (∀ p bytes, detectFileType bytes = FileType.zip →
        decompressArchiveRoute p bytes = Except.ok Route.zipStreaming) ∧
    (∀ p bytes, detectFileType bytes = FileType.gzip ∨ detectFileType bytes = FileType.tar →
        decompressArchiveRoute p bytes = Except.ok Route.tarGz) ∧
    (∀ p bytes, detectFileType bytes = FileType.unknown →
        toLowerStr (extname p) = ".zip" →
        decompressArchiveRoute p bytes = Except.ok Route.zipStreaming) ∧
    (∀ p bytes, detectFileType bytes = FileType.unknown →
        toLowerStr (extname p) ≠ ".zip" →
        (toLowerStr (extname p) = ".gz" ∨ endsWithStr p ".tar.gz" = true) →
        decompressArchiveRoute p bytes = Except.ok Route.tarGz) ∧
    (∀ p bytes, detectFileType bytes = FileType.unknown →
        toLowerStr (extname p) ≠ ".zip" →
        toLowerStr (extname p) ≠ ".gz" →
        endsWithStr p ".tar.gz" = false →
        decompressArchiveRoute p bytes =
          Except.error ("Unsupported archive format: " ++ toLowerStr (extname p))) := by
  refine ⟨?_, ?_, ?_, ?_, ?_, ?_, ?_, ?_, ?_⟩
  · intro bytes h0 h1
    simp [detectFileType, h0, h1]
  · intro bytes h0 h1
    simp [detectFileType, h0, h1]
  · intro bytes hz hg ht
    simp [detectFileType, hz, hg, ht]
  · intro bytes hz hg ht
    simp [detectFileType, hz, hg, ht]
  · intro p bytes h
    simp [decompressArchiveRoute, h]
  · intro p bytes h
    rcases h with h | h <;> simp [decompressArchiveRoute, h]
  · intro p bytes h hext
    simp [decompressArchiveRoute, h, hext]
  · intro p bytes h hz hrest
    rcases hrest with hgz | hsuf
    · simp [decompressArchiveRoute, h, hz, hgz]
    · simp [decompressArchiveRoute, h, hz, hsuf]
  · intro p bytes h hz hgz hsuf
    simp [decompressArchiveRoute, h, hz, hgz, hsuf]

/-- Witness for C4 (amended): the zip magic bytes are detected as zip and
dispatch to the zip path even under a misleading `.tar.gz` name. -/
theorem detect_and_dispatch_spec_witness :
    detectFileType [0x50, 0x4B, 3, 4] = FileType.zip ∧
    decompressArchiveRoute "odd.tar.gz" [0x50, 0x4B, 3, 4] =
      Except.ok Route.zipStreaming :=
  ⟨detect_and_dispatch_spec.1 [0x50, 0x4B, 3, 4] rfl rfl,
   (detect_and_dispatch_spec.2.2.2.2.1 "odd.tar.gz" [0x50, 0x4B, 3, 4]
     (detect_and_dispatch_spec.1 [0x50, 0x4B, 3, 4] rfl rfl))⟩

end Archive

namespace TaskCore

/-- Source enum `TaskStatus` from Types.ts. -/
inductive TaskStatus where
  | pending
  | in_progress
  | completed
  | failed
  | cancelled
deriving DecidableEq

/-- Source enum `TaskType` from Types.ts. -/
inductive TaskType where
  | downloading
  | unpacking
  | backup_compress
  | backup_restore
deriving DecidableEq

/-- A `ProgressData` snapshot (Types.ts), with every field optional as in
the `Partial<ProgressData>` the transition methods accept; `percentage` is
a rational standing for the JS number. -/
structure ProgressData where
  percentage : Option ℚ
  processedBytes : Option Nat
  totalBytes : Option Nat
  currentFile : Option String
deriving DecidableEq

/-- The empty `details` object a fresh `Task` starts with. -/
def emptyDetails : ProgressData :=
  { percentage := none, processedBytes := none, totalBytes := none, currentFile := none }

/-- The `Task` entity (src/core/Task.ts), parametrised by the result type;
`result`/`error` are `Option`s standing for nullable fields, timestamps are
abstract ticks. -/
structure Task (α : Type) where
  id : String
  type : TaskType
  status : TaskStatus
  progress : ℤ
  payload : List (String × String)
  result : Option α
  error : Option String
  details : ProgressData
  createdAt : Nat
  updatedAt : Nat

/-- The `Task` constructor: fresh id, `status = PENDING`, `progress = 0`,
`error = null`, `result = null`, empty details, both timestamps now. -/
def newTask (α : Type) (id : String) (ty : TaskType)
    (payload : List (String × String)) (now : Nat) : Task α :=
  { id := id, type := ty, status := TaskStatus.pending, progress := 0,
    payload := payload, result := none, error := none, details := emptyDetails,
    createdAt := now, updatedAt := now }

/-- Names of the lifecycle events the orchestrator publishes. -/
inductive EvName where
  | created
  | started
  | progressEv
  | completed
  | failed
deriving DecidableEq

/-- JavaScript `Math.round` (round half toward positive infinity). -/
def jsRound (q : ℚ) : ℤ := ⌊q + 1/2⌋

/-- The spread merge `{ ...task.details, ...progressData }`: a field
present in the snapshot overrides, an absent field keeps the stored
value. -/
def mergeDetails (d pd : ProgressData) : ProgressData :=
  { percentage := match pd.percentage with | some v => some v | none => d.percentage
    processedBytes := match pd.processedBytes with | some v => some v | none => d.processedBytes
    totalBytes := match pd.totalBytes with | some v => some v | none => d.totalBytes
    currentFile := match pd.currentFile with | some v => some v | none => d.currentFile }

/-- `TaskManager._updateTaskProgress`:
`progress = Math.min(100, Math.round(progressData.percentage ?? task.progress))`,
merge the snapshot into `details`, refresh `updatedAt`, publish
`task:progress`. -/
def updateTaskProgress {α : Type} (t : Task α) (pd : ProgressData) (now : Nat) :
    Task α × List EvName :=
  ({ t with
      progress := min 100 (jsRound (pd.percentage.getD (t.progress : ℚ)))
      updatedAt := now
      details := mergeDetails t.details pd },
   [EvName.progressEv])

/-- `TaskManager._startTask`: `status = IN_PROGRESS`, refresh `updatedAt`,
publish `task:started`. -/
def startTask {α : Type} (t : Task α) (now : Nat) : Task α × List EvName :=
  ({ t with status := TaskStatus.in_progress, updatedAt := now }, [EvName.started])

/-- `TaskManager._completeTask`: `status = COMPLETED`, `progress = 100`,
store the result, refresh `updatedAt`, publish `task:completed`. -/
def completeTask {α : Type} (t : Task α) (r : α) (now : Nat) : Task α × List EvName :=
  ({ t with
      status := TaskStatus.completed
      progress := 100
      result := some r
      updatedAt := now }, [EvName.completed])

/-- `TaskManager._failTask`: `status = FAILED`, store `error.message`,
refresh `updatedAt`, publish `task:failed`. -/
def failTask {α : Type} (t : Task α) (msg : String) (now : Nat) : Task α × List EvName :=
  ({ t with status := TaskStatus.failed, error := some msg, updatedAt := now },
   [EvName.failed])

theorem jsRound_nonneg (p : ℚ) (h : 0 ≤ p) : 0 ≤ jsRound p := by
  unfold jsRound
  rw [Int.le_floor]
  push_cast
  linarith

/-- C5: for an in-progress task and a snapshot carrying a percentage `p ≥ 0`
(snapshot percentages are non-negative by the data model),
`_updateTaskProgress` sets `progress` to `min(100, round(p))` — an integer
between 0 and 100 even when `p > 100` — merges the snapshot fields into
`details` (present fields override, absent fields persist), refreshes
`updatedAt`, publishes exactly `task:progress`, and leaves status, result
and error untouched. -/
theorem updateProgress_clamps_merges_publishes {α : Type} (t : Task α)
    (pd : ProgressData) (p : ℚ) (now : Nat)
    (_hstatus : t.status = TaskStatus.in_progress)
    (hp : pd.percentage = some p) (h0 : 0 ≤ p) :
    (updateTaskProgress t pd now).1.progress = min 100 (jsRound p) ∧
    0 ≤ (updateTaskProgress t pd now).1.progress ∧
    (updateTaskProgress t pd now).1.progress ≤ 100 ∧
    (updateTaskProgress t pd now).1.details = mergeDetails t.details pd ∧
    (updateTaskProgress t pd now).1.details.percentage = some p ∧
    (pd.currentFile = none →
      (updateTaskProgress t pd now).1.details.currentFile = t.details.currentFile) ∧
    (∀ f, pd.currentFile = some f →
      (updateTaskProgress t pd now).1.details.currentFile = some f) ∧
    (updateTaskProgress t pd now).1.updatedAt = now ∧
    (updateTaskProgress t pd now).1.status = t.status ∧
    (updateTaskProgress t pd now).1.result = t.result ∧
    (updateTaskProgress t pd now).1.error = t.error ∧
    (updateTaskProgress t pd now).2 = [EvName.progressEv] := by
  refine ⟨?_, ?_, ?_, rfl, ?_, ?_, ?_, rfl, rfl, rfl, rfl, rfl⟩
  · simp [updateTaskProgress, hp]
  · simp only [updateTaskProgress, hp, Option.getD_some]
    exact le_min (by norm_num) (jsRound_nonneg p h0)
  · simp only [updateTaskProgress]
    exact min_le_left _ _
  · simp [updateTaskProgress, mergeDetails, hp]
  · intro hnone
    simp [updateTaskProgress, mergeDetails, hnone]
  · intro f hf
    simp [updateTaskProgress, mergeDetails, hf]

/-- Concrete in-progress task for the C5 witness. -/
def progressWitnessTask : Task Nat :=
  (startTask (newTask Nat "task-1" TaskType.backup_compress [] 0) 1).1

/-- Concrete snapshot for the C5 witness: the adapter over-reports 150%. -/
def progressWitnessSnapshot : ProgressData :=
  { percentage := some ((150 : ℤ) : ℚ), processedBytes := some 150,
    totalBytes := some 100, currentFile := some "file1.txt" }

/-- Witness for C5: applying the theorem at the concrete over-reporting
snapshot, the stored progress is the clamped `min(100, round(150))` and it
does not exceed 100. -/
theorem updateProgress_clamps_merges_publishes_witness :
    (updateTaskProgress progressWitnessTask progressWitnessSnapshot 2).1.progress =
      min 100 (jsRound ((150 : ℤ) : ℚ)) ∧
    (updateTaskProgress progressWitnessTask progressWitnessSnapshot 2).1.progress ≤ 100 :=
  ⟨(updateProgress_clamps_merges_publishes progressWitnessTask progressWitnessSnapshot
      ((150 : ℤ) : ℚ) 2 rfl rfl (Int.cast_nonneg.mpr (by decide))).1,
   (updateProgress_clamps_merges_publishes progressWitnessTask progressWitnessSnapshot
      ((150 : ℤ) : ℚ) 2 rfl rfl (Int.cast_nonneg.mpr (by decide))).2.2.1⟩

end TaskCore

namespace TaskCore

/-- The result/error invariant of the data model: both null while
pending/in-progress; exactly the result populated when completed; exactly
the error populated when failed. -/
def taskSettleInvariant {α : Type} (t : Task α) : Prop :=
  ((t.status = TaskStatus.pending ∨ t.status = TaskStatus.in_progress) →
      t.result = none ∧ t.error = none) ∧
  (t.status = TaskStatus.completed → t.result.isSome = true ∧ t.error = none) ∧
  (t.status = TaskStatus.failed → t.error.isSome = true ∧ t.result = none)

/-- One orchestrator transition on a task, with the guards realised by the
source's control flow: `_startTask` runs once, synchronously, at the top of
each `_execute*` on the freshly created pending task; `_updateTaskProgress`
runs only from progress callbacks during execution; `_completeTask` is the
final statement of a successful execution; `_failTask` runs from the
`.catch` of the execution chain, which fires only after `_startTask`
(pending is kept in the relation for safety) and never after
`_completeTask`, the last, non-throwing statement of the chain. -/
inductive OrchStep {α : Type} : Task α → Task α → Prop where
  | start (t : Task α) (now : Nat) (h : t.status = TaskStatus.pending) :
      OrchStep t (startTask t now).1
  | progressStep (t : Task α) (pd : ProgressData) (now : Nat)
      (h : t.status = TaskStatus.in_progress) :
      OrchStep t (updateTaskProgress t pd now).1
  | complete (t : Task α) (r : α) (now : Nat)
      (h : t.status = TaskStatus.in_progress) :
      OrchStep t (completeTask t r now).1
  | failStep (t : Task α) (msg : String) (now : Nat)
      (h : t.status = TaskStatus.pending ∨ t.status = TaskStatus.in_progress) :
      OrchStep t (failTask t msg now).1

/-- Tasks reachable by the orchestrator: created by `_createTask` (i.e.
the `Task` constructor) and then driven only by the transition methods. -/
inductive OrchReachable {α : Type} : Task α → Prop where
  | created (id : String) (ty : TaskType) (payload : List (String × String)) (now : Nat) :
      OrchReachable (newTask α id ty payload now)
  | step {t t2 : Task α} (ht : OrchReachable t) (hstep : OrchStep t t2) :
      OrchReachable t2

/-- C6: every task the orchestrator can produce satisfies the result/error
invariant — result and error are both null while pending or in progress,
and once terminal, the result is populated exactly when completed and the
error exactly when failed; every transition (create, start, progress,
complete, fail) preserves this. -/
theorem result_error_exclusive {α : Type} :
    ∀ t : Task α, OrchReachable t → taskSettleInvariant t := by
  intro t h
  induction h with
  | created id ty payload now =>
      refine ⟨fun _ => ⟨rfl, rfl⟩, fun hc => ?_, fun hf => ?_⟩
      · exact absurd hc (by simp [newTask])
      · exact absurd hf (by simp [newTask])
  | step ht hstep ih =>
      cases hstep with
      | start now h =>
          refine ⟨fun _ => ih.1 (Or.inl h), fun hc => ?_, fun hf => ?_⟩
          · exact absurd hc (by simp [startTask])
          · exact absurd hf (by simp [startTask])
      | progressStep pd now h =>
          refine ⟨fun _ => ih.1 (Or.inr h), fun hc => ?_, fun hf => ?_⟩
          · exact absurd hc (by simp [updateTaskProgress, h])
          · exact absurd hf (by simp [updateTaskProgress, h])
      | complete r now h =>
          refine ⟨fun habs => ?_, fun _ => ?_, fun hf => ?_⟩
          · rcases habs with habs | habs <;> exact absurd habs (by simp [completeTask])
          · exact ⟨rfl, (ih.1 (Or.inr h)).2⟩
          · exact absurd hf (by simp [completeTask])
      | failStep msg now h =>
          refine ⟨fun habs => ?_, fun hc => ?_, fun _ => ?_⟩
          · rcases habs with habs | habs <;> exact absurd habs (by simp [failTask])
          · exact absurd hc (by simp [failTask])
          · exact ⟨rfl, (ih.1 h).1⟩

/-- Concrete completed task for the C6 witness: created, started, then
completed with result 7. -/
def settledWitnessTask : Task Nat :=
  (completeTask (startTask (newTask Nat "task-2" TaskType.downloading [] 0) 1).1 7 2).1

/-- Witness for C6: the invariant, delivered by the theorem, holds at the
concrete reachable completed task. -/
theorem result_error_exclusive_witness : taskSettleInvariant settledWitnessTask :=
  result_error_exclusive settledWitnessTask
    (OrchReachable.step
      (OrchReachable.step (OrchReachable.created "task-2" TaskType.downloading [] 0)
        (OrchStep.start _ 1 rfl))
      (OrchStep.complete _ 7 2 rfl))

end TaskCore

namespace TaskCore

/-- `this.tasks.get(taskId)` on the insertion-ordered task table. -/
def lookupTask {α : Type} (tasks : List (String × Task α)) (id : String) :
    Option (Task α) :=
  (tasks.find? (fun p => p.1 == id)).map Prod.snd

/-- JavaScript `task.error || 'Task failed'`: `||` replaces both `null`
and the empty (falsy) string. -/
def jsErrorOrDefault (e : Option String) : String :=
  match e with
  | some s => if s = "" then "Task failed" else s
  | none => "Task failed"

/-- What `waitForTask` does synchronously, before any event can fire. -/
inductive WaitOutcome (α : Type) where
  | rejectedNotFound (msg : String)
  | resolvedNow (r : Option α)
  | rejectedNow (msg : String)
  | waitForEvents
deriving DecidableEq

/-- `TaskManager.waitForTask`: unknown id rejects with the not-found
error; an already-completed task resolves immediately with the stored
result; an already-failed task rejects immediately with the stored error;
otherwise it subscribes to `task:completed` and `task:failed`
(`WaitOutcome.waitForEvents`, with the subscription dynamics in
`waitStep`). -/
def waitForTask {α : Type} (tasks : List (String × Task α)) (taskId : String) :
    WaitOutcome α :=
  match lookupTask tasks taskId with
  | none => WaitOutcome.rejectedNotFound ("Task " ++ taskId ++ " not found")
  | some t =>
      if t.status = TaskStatus.completed then WaitOutcome.resolvedNow t.result
      else if t.status = TaskStatus.failed then
        WaitOutcome.rejectedNow (jsErrorOrDefault t.error)
      else WaitOutcome.waitForEvents

/-- The state of the two subscriptions `waitForTask` registers while the
task is still running, plus the promise settlement. -/
structure WaitSubscriptions (α : Type) where
  subCompleted : Bool
  subFailed : Bool
  settled : Option (Except String (Option α))

/-- Both subscriptions are live and the promise pending right after
`waitForTask` registers its handlers. -/
def initWaitSubscriptions (α : Type) : WaitSubscriptions α :=
  { subCompleted := true, subFailed := true, settled := none }

/-- Effect of one published lifecycle event on the `waitForTask`
subscriptions: `onCompleted` / `onFailed` do nothing while unsubscribed or
for a different task id; on the matching terminal event they run
`cleanup()` (removing both subscriptions) and settle the promise with the
event's task snapshot. -/
def waitStep {α : Type} (taskId : String) (s : WaitSubscriptions α)
    (ev : EvName × Task α) : WaitSubscriptions α :=
  match ev.1 with
  | EvName.completed =>
      if s.subCompleted = true ∧ ev.2.id = taskId then
        { subCompleted := false, subFailed := false,
          settled := some (Except.ok ev.2.result) }
      else s
  | EvName.failed =>
      if s.subFailed = true ∧ ev.2.id = taskId then
        { subCompleted := false, subFailed := false,
          settled := some (Except.error (jsErrorOrDefault ev.2.error)) }
      else s
  | _ => s

/-- C2: `waitForTask` rejects unknown ids with the not-found error;
settles immediately from the stored result/error when the task is already
terminal (without registering any subscription); otherwise registers both
subscriptions, and the handlers settle exactly on the first terminal event
carrying the matching id, removing both subscriptions at that point, while
ignoring non-matching ids, non-terminal events, and everything after
cleanup. -/
theorem waitForTask_semantics {α : Type} :
    (∀ (tasks : List (String × Task α)) (id : String),
        lookupTask tasks id = none →
        waitForTask tasks id =
          WaitOutcome.rejectedNotFound ("Task " ++ id ++ " not found")) ∧
    (∀ (tasks : List (String × Task α)) (id : String) (t : Task α),
        lookupTask tasks id = some t → t.status = TaskStatus.completed →
        waitForTask tasks id = WaitOutcome.resolvedNow t.result) ∧
    (∀ (tasks : List (String × Task α)) (id : String) (t : Task α),
        lookupTask tasks id = some t → t.status = TaskStatus.failed →
        waitForTask tasks id = WaitOutcome.rejectedNow (jsErrorOrDefault t.error)) ∧
    (∀ (tasks : List (String × Task α)) (id : String) (t : Task α),
        lookupTask tasks id = some t →
        t.status ≠ TaskStatus.completed → t.status ≠ TaskStatus.failed →
        waitForTask tasks id = WaitOutcome.waitForEvents) ∧
    (∀ (id : String) (t : Task α) (s : WaitSubscriptions α),
        s.subCompleted = true → t.id = id →
        waitStep id s (EvName.completed, t) =
          { subCompleted := false, subFailed := false,
            settled := some (Except.ok t.result) }) ∧
    (∀ (id : String) (t : Task α) (s : WaitSubscriptions α),
        s.subFailed = true → t.id = id →
        waitStep id s (EvName.failed, t) =
          { subCompleted := false, subFailed := false,
            settled := some (Except.error (jsErrorOrDefault t.error)) }) ∧
    (∀ (id : String) (t : Task α) (s : WaitSubscriptions α) (ev : EvName),
        t.id ≠ id → waitStep id s (ev, t) = s) ∧
    (∀ (id : String) (t : Task α) (s : WaitSubscriptions α) (ev : EvName),
        ev = EvName.created ∨ ev = EvName.started ∨ ev = EvName.progressEv →
        waitStep id s (ev, t) = s) ∧
    (∀ (id : String) (t : Task α) (s : WaitSubscriptions α) (ev : EvName),
        s.subCompleted = false → s.subFailed = false →
        waitStep id s (ev, t) = s) := by
  refine ⟨?_, ?_, ?_, ?_, ?_, ?_, ?_, ?_, ?_⟩
  · intro tasks id h
    simp [waitForTask, h]
  · intro tasks id t h hst
    simp [waitForTask, h, hst]
  · intro tasks id t h hst
    simp [waitForTask, h, hst]
  · intro tasks id t h hc hf
    simp [waitForTask, h, hc, hf]
  · intro id t s hs hid
    simp [waitStep, hs, hid]
  · intro id t s hs hid
    simp [waitStep, hs, hid]
  · intro id t s ev hid
    cases ev <;> simp [waitStep, hid]
  · intro id t s ev hev
    rcases hev with h | h | h <;> subst h <;> rfl
  · intro id t s ev hc hf
    cases ev <;> simp [waitStep, hc, hf]

/-- Witness for C2: looking up an id absent from the empty task table, the
theorem yields the not-found rejection. -/
theorem waitForTask_semantics_witness :
    waitForTask ([] : List (String × Task Nat)) "ghost" =
      WaitOutcome.rejectedNotFound ("Task " ++ "ghost" ++ " not found") :=
  waitForTask_semantics.1 [] "ghost" rfl

end TaskCore

namespace TaskCore

/-- ASCII letter test for the URL scheme start. -/
def isAsciiLetter (c : Char) : Bool :=
  ('a' ≤ c && c ≤ 'z') || ('A' ≤ c && c ≤ 'Z')

/-- Characters allowed after the first character of a URL scheme. -/
def isSchemeChar (c : Char) : Bool :=
  isAsciiLetter c || ('0' ≤ c && c ≤ '9') || c == '+' || c == '-' || c == '.'

/-- Model of the WHATWG `new URL(url)` constructor (a JS builtin, external
to the repository), restricted to what `download` needs: parsing fails —
the constructor throws `TypeError [ERR_INVALID_URL]` — whenever the input
has no `scheme ':'` introduction; on success the part after the colon is
returned (for hierarchical URLs, `path.basename` of the WHATWG pathname
and of this remainder coincide, since the host contains no `/`). -/
def parseURL (s : String) : Option (String × String) :=
  match s.data.findIdx? (fun c => c == ':') with
  | none => none
  | some i =>
      let scheme := s.data.take i
      if scheme.isEmpty then none
      else if isAsciiLetter (scheme.headD ' ') && scheme.all isSchemeChar then
        some (String.mk scheme, String.mk (s.data.drop (i + 1)))
      else none

/-- The manager state `download` touches synchronously: the configured
download directory, the task table and the id source (standing for
`randomUUID`). -/
structure ManagerState (α : Type) where
  downloadPath : String
  tasks : List (String × Task α)
  nextId : Nat

/-- A freshly constructed `TaskManager` with an empty task table. -/
def newManager (α : Type) (downloadPath : String) : ManagerState α :=
  { downloadPath := downloadPath, tasks := [], nextId := 0 }

/-- `TaskManager.download` (the non-`async` method of core/TaskManager.ts)
up to returning its `{taskId, promise}` handle: compute
`fileName = options.fileName || path.basename(new URL(url).pathname)` —
so an unparsable URL makes the call itself throw, before any task exists —
then `filePath = path.join(downloadPath, fileName)`, create the pending
task (inserting it into the table and publishing `task:created`) and
return the handle.  The thrown `TypeError` is the `Except.error` branch,
which carries no new state, no event and no handle. -/
def download {α : Type} (st : ManagerState α) (url : String)
    (fileName? : Option String) (now : Nat) :
    Except String (ManagerState α × String × List EvName) :=
  let nameFromUrl : Except String String :=
    match parseURL url with
    | none => Except.error ("Invalid URL: " ++ url)
    | some pr => Except.ok (String.mk (Archive.basenameChars pr.2.data))
  let fileNameE : Except String String :=
    match fileName? with
    | some f => if f = "" then nameFromUrl else Except.ok f
    | none => nameFromUrl
  match fileNameE with
  | Except.error e => Except.error e
  | Except.ok fileName =>
      let filePath := st.downloadPath ++ "/" ++ fileName
      let id := "task-" ++ toString st.nextId
      let task := newTask α id TaskType.downloading
        [("url", url), ("filePath", filePath), ("fileName", fileName)] now
      Except.ok
        ({ downloadPath := st.downloadPath, tasks := st.tasks ++ [(id, task)],
           nextId := st.nextId + 1 },
         id, [EvName.created])

/-- C10: on the concrete unparsable input `"not a url"` (no scheme, so the
URL constructor throws), `download` throws synchronously: the result is
the error alone — no task is inserted, no `task:created` or `task:failed`
event is published and no `taskId`/`promise` handle is produced — whereas
a parsable URL does create and register a pending task.  (`download` is
not `async`, so the throw happens at the call itself.) -/
theorem download_invalid_url_throws :
    parseURL "not a url" = none ∧
    download (newManager Nat "downloads") "not a url" none 0 =
      Except.error ("Invalid URL: " ++ "not a url") ∧
    download (newManager Nat "downloads") "https://example.com/path/file.bin" none 0 =
      Except.ok
        ({ downloadPath := "downloads",
           tasks := [("task-0",
             newTask Nat "task-0" TaskType.downloading
               [("url", "https://example.com/path/file.bin"),
                ("filePath", "downloads/file.bin"), ("fileName", "file.bin")] 0)],
           nextId := 1 },
         "task-0", [EvName.created]) :=
  ⟨rfl, rfl, rfl⟩

end TaskCore
